import Mathlib

/-!
Verification of the template contract validator and renderer of
`madlibs_cli.py` (the "core" pipeline: sanitizer, structural value,
contract validation, template model, renderer).

The Python code is shallowly embedded:
* JSON values decoded by `json.loads` become the inductive `Json`
  (the textual JSON parser itself is not modelled; all properties here
  start from the decoded structured value).
* Python subscripting (`d[k]`), iteration (`for item in xs`) and the
  `try/except (KeyError, TypeError)` discipline of
  `parse_template_payload` are modelled explicitly, returning `Except`.
* `str.format(**answers)` is modelled by `fmtGo`, a scanner faithful to
  CPython for format strings whose replacement fields are plain keys
  (no attribute access, conversion or format spec) — the only kind of
  field the templates in this program use.
* `strip_code_fence` is modelled character-by-character, including
  `str.strip`, `str.split("```" )` and `str.lower`.

All definitions are executable and structurally recursive, so concrete
runs evaluate inside the kernel.
-/

namespace Madlibs

/-- A decoded JSON value, as produced by `json.loads`.  Numbers are
modelled as integers (no property here depends on numerics); objects
keep their field list in textual order. -/
inductive Json where
  | null
  | bool (b : Bool)
  | num (n : Int)
  | str (s : String)
  | arr (elems : List Json)
  | obj (fields : List (String × Json))

/-- Python exceptions that `parse_template_payload` catches. -/
inductive PyErr where
  | keyError (k : String)
  | typeError

/-- Lookup in a decoded JSON object.  `json.loads` keeps the last
binding of a duplicated key, so the last matching field wins. -/
def dictGet : List (String × Json) → String → Option Json
  | [], _ => none
  | (k', v) :: rest, k =>
      match dictGet rest k with
      | some r => some r
      | none => if k' = k then some v else none

/-- Python subscripting `value[k]` with a string key: objects (dicts)
either produce the value or raise `KeyError`; every other value raises
`TypeError` (string/list subscripts need integers, scalars are not
subscriptable). -/
def getItem : Json → String → Except PyErr Json
  | .obj fields, k =>
      match dictGet fields k with
      | some v => .ok v
      | none => .error (.keyError k)
  | _, _ => .error .typeError

/-- Python iteration `for item in value`: lists yield their elements,
strings yield one-character strings, dicts yield their keys, and every
other value raises `TypeError`. -/
def pyIter : Json → Except PyErr (List Json)
  | .arr xs => .ok xs
  | .str s => .ok (s.data.map fun c => .str (String.mk [c]))
  | .obj fields => .ok (fields.map fun p => .str p.1)
  | _ => .error .typeError

/-- One fill-in slot (`Blank` dataclass).  The constructor performs no
type check, so `key` and `prompt` hold whatever JSON values the payload
supplied. -/
structure Blank where
  key : Json
  prompt : Json

/-- The validated template (`StoryTemplate` dataclass).  As in the
source, field types are not enforced at construction. -/
structure StoryTemplate where
  title : Json
  blanks : List Blank
  skeleton : Json

/-- Failures of the `str.format` scanner: an unresolved replacement
field (CPython `KeyError`) or a stray/unterminated brace (CPython
`ValueError`). -/
inductive FmtErr where
  | keyError (k : String)
  | unmatchedBrace

/-- Keyword lookup for `skeleton.format(**answers)`.  Answer maps have
unique keys in the program (they come from a Python dict), so first
match suffices. -/
def lookupA : List (String × String) → String → Option String
  | [], _ => none
  | (k, v) :: rest, key => if k = key then some v else lookupA rest key

/-- Scanner for `str.format`.  `none` is literal mode; `some acc` is
inside a replacement field with the field name accumulated in reverse.
Faithful to CPython on format strings whose fields are plain keyword
names: `\x7b\x7b` and `\x7d\x7d` are escapes, `\x7bname\x7d` looks
`name` up among the keyword arguments (`KeyError` if absent), and a
stray or unterminated brace is a `ValueError`. -/
def fmtGo (answers : List (String × String)) : Option (List Char) → List Char → Except FmtErr (List Char)
  | none, [] => .ok []
  | none, [c] =>
      if c = '{' ∨ c = '}' then .error .unmatchedBrace else .ok [c]
  | none, c :: d :: cs =>
      if c = '{' then
        if d = '{' then (fmtGo answers none cs).map (fun t => '{' :: t)
        else fmtGo answers (some []) (d :: cs)
      else if c = '}' then
        if d = '}' then (fmtGo answers none cs).map (fun t => '}' :: t)
        else .error .unmatchedBrace
      else (fmtGo answers none (d :: cs)).map (fun t => c :: t)
  | some _, [] => .error .unmatchedBrace
  | some acc, c :: cs =>
      if c = '}' then
        match lookupA answers (String.mk acc.reverse) with
        | none => .error (.keyError (String.mk acc.reverse))
        | some v => (fmtGo answers none cs).map (fun t => v.data ++ t)
      else fmtGo answers (some (c :: acc)) cs

/-- `s.format(**answers)` for a string `s`. -/
def pyFormat (s : String) (answers : List (String × String)) : Except FmtErr String :=
  (fmtGo answers none s.data).map String.mk

/-- Failures of `StoryTemplate.build`: the skeleton value has no
`format` attribute (it was not a string), or `format` itself failed. -/
inductive RenderErr where
  | attrError
  | fmtErr (e : FmtErr)

/-- Rendering from a skeleton JSON value: `self.skeleton.format(**answers)`.
A non-string skeleton raises `AttributeError`. -/
def renderSkeleton (answers : List (String × String)) : Json → Except RenderErr String
  | .str s =>
      match pyFormat s answers with
      | .ok out => .ok out
      | .error e => .error (.fmtErr e)
  | _ => .error .attrError

/-- `StoryTemplate.build` from the source: substitute the answers into
the skeleton. -/
def StoryTemplate.build (t : StoryTemplate) (answers : List (String × String)) : Except RenderErr String :=
  renderSkeleton answers t.skeleton

/-- Errors surfaced by `build_story`: the `RuntimeError` it raises for
a missing answer, or an uncaught exception from `format`. -/
inductive StoryErr where
  | runtimeError (msg : String)
  | uncaught (e : RenderErr)

/-- A single-quote character as a string (the quoting Python applies
when a `KeyError` is interpolated into the `RuntimeError` message). -/
def squote : String := String.mk [Char.ofNat 39]

/-- `build_story` after the interactive answers have been collected:
wraps a `KeyError` from `format` into
`RuntimeError("Missing answer for placeholder: <key repr>")` and lets
every other exception propagate. -/
def build_story_with (t : StoryTemplate) (answers : List (String × String)) : Except StoryErr String :=
  match t.build answers with
  | .ok s => .ok s
  | .error (.fmtErr (.keyError k)) =>
      .error (.runtimeError ("Missing answer for placeholder: " ++ squote ++ k ++ squote))
  | .error e => .error (.uncaught e)

/-- Reads one element of the `blanks` list:
`Blank(key=item["key"], prompt=item["prompt"])`. -/
def readBlank (item : Json) : Except PyErr Blank :=
  match getItem item "key" with
  | .error e => .error e
  | .ok k =>
      match getItem item "prompt" with
      | .error e => .error e
      | .ok p => .ok ⟨k, p⟩

/-- The list comprehension building all blanks, failing on the first
bad element. -/
def readBlanks : List Json → Except PyErr (List Blank)
  | [] => .ok []
  | item :: rest =>
      match readBlank item with
      | .error e => .error e
      | .ok b =>
          match readBlanks rest with
          | .error e => .error e
          | .ok bs => .ok (b :: bs)

/-- The `ValueError`s raised by `parse_template_payload` (message kept
verbatim from the source). -/
inductive ValueErr where
  | valueError (msg : String)

/-- The body of the `try` block of `parse_template_payload`: fetch
`blanks`, iterate it, build the `Blank`s, then fetch `title` and
`skeleton`.  Any `KeyError` or `TypeError` escapes to the handler. -/
def try_build_template (asDict : Json) : Except PyErr StoryTemplate :=
  match getItem asDict "blanks" with
  | .error e => .error e
  | .ok blanksData =>
      match pyIter blanksData with
      | .error e => .error e
      | .ok items =>
          match readBlanks items with
          | .error e => .error e
          | .ok blanks =>
              match getItem asDict "title" with
              | .error e => .error e
              | .ok title =>
                  match getItem asDict "skeleton" with
                  | .error e => .error e
                  | .ok skeleton => .ok ⟨title, blanks, skeleton⟩

/-- `parse_template_payload` from the decoded JSON value on: shape
errors collapse to one fixed `ValueError`, then the blank count is
checked against the hard-coded `8 ≤ n ≤ 10` bound.  (The textual
`json.loads` step and its distinct `ValueError` for malformed JSON are
upstream of this model.) -/
def parse_template_payload (asDict : Json) : Except ValueErr StoryTemplate :=
  match try_build_template asDict with
  | .error _ => .error (.valueError "Gemini response JSON missed required fields.")
  | .ok t =>
      if 8 ≤ t.blanks.length ∧ t.blanks.length ≤ 10 then .ok t
      else .error (.valueError "Template must contain between 8 and 10 blanks.")

/-- Payload with the three expected top-level fields, the blanks being
arbitrary JSON pairs under `key` and `prompt`. -/
def mkPayload (title : Json) (items : List (Json × Json)) (skel : Json) : Json :=
  .obj [("title", title),
        ("blanks", .arr (items.map fun p => .obj [("key", p.1), ("prompt", p.2)])),
        ("skeleton", skel)]

/-- Payload whose title, skeleton, keys and prompts are all strings —
the shape the generation prompt requests. -/
def mkPayloadS (title : String) (bs : List (String × String)) (skel : String) : Json :=
  mkPayload (.str title) (bs.map fun p => (.str p.1, .str p.2)) (.str skel)

end Madlibs

namespace Madlibs

/-! ### The sanitizer (`strip_code_fence`) -/

/-- The backtick character, written via its code point. -/
def btick : Char := Char.ofNat 96

/-- The three-backtick fence marker. -/
def fence : List Char := [btick, btick, btick]

/-- The characters of the lowercase language tag `json`. -/
def jsonChars : List Char := "json".data

/-- Does `l` start with the pattern `pat`? (Python `startswith`.) -/
def startsWithSeq : List Char → List Char → Bool
  | [], _ => true
  | _ :: _, [] => false
  | p :: ps, c :: cs => p = c && startsWithSeq ps cs

/-- Does `l` contain the pattern `pat` as a contiguous run? -/
def containsSeq (pat : List Char) : List Char → Bool
  | [] => startsWithSeq pat []
  | c :: cs => startsWithSeq pat (c :: cs) || containsSeq pat cs

/-- Python `str.strip()`: drop whitespace from both ends. -/
def trimChars (cs : List Char) : List Char :=
  ((cs.dropWhile Char.isWhitespace).reverse.dropWhile Char.isWhitespace).reverse

/-- Python `str.lower()` (ASCII case, all this program compares is
`"json"`). -/
def lowerChars (cs : List Char) : List Char :=
  cs.map Char.toLower

/-- Python `text.split("```")`: the list of chunks between
non-overlapping occurrences of the three-backtick separator, scanned
left to right. -/
def fenceSplit : List Char → List (List Char)
  | [] => [[]]
  | [c] => [[c]]
  | [c, d] => [[c, d]]
  | c :: d :: e :: rest =>
      if c = btick ∧ d = btick ∧ e = btick then
        [] :: fenceSplit rest
      else
        match fenceSplit (d :: e :: rest) with
        | [] => [[c]]
        | s :: ss => (c :: s) :: ss

/-- The loop of `strip_code_fence`: the first chunk that is non-empty
after stripping and is not the (case-insensitive) language tag `json`,
returned stripped. -/
def firstGoodChunk : List (List Char) → Option (List Char)
  | [] => none
  | chunk :: rest =>
      if trimChars chunk = [] ∨ lowerChars (trimChars chunk) = jsonChars then
        firstGoodChunk rest
      else some (trimChars chunk)

/-- Character-level body of `strip_code_fence`. -/
def sanitizeChars (cs : List Char) : List Char :=
  if startsWithSeq fence (trimChars cs) then
    match firstGoodChunk (fenceSplit (trimChars cs)) with
    | some c => c
    | none => trimChars cs
  else trimChars cs

/-- `strip_code_fence` from the source: trim, and if the text starts
with a fence, return the first acceptable fenced chunk (falling back to
the trimmed text). -/
def strip_code_fence (text : String) : String :=
  String.mk (sanitizeChars text.data)

end Madlibs

namespace Madlibs

/-!
### Skeleton shape

To state properties about skeletons "referencing keys as placeholders"
we describe a skeleton as a list of segments: literal runs (without
brace characters) and simple placeholder fields.  `segsChars` produces
the concrete text of such a skeleton; the claims quantify over all
skeletons of this shape.  This is a statement device only: rendering is
always performed by the source-derived `fmtGo`, and the bridge lemma
`fmtGo_segs` proves that on such texts it coincides with the obvious
segment-wise substitution.
-/

/-- A skeleton segment: a literal run or a placeholder field. -/
inductive Seg where
  | lit (s : String)
  | field (k : String)

/-- Well-formed identifier for a placeholder key, as the specification
defines it: non-empty, letters/digits/underscore only, not purely
numeric. -/
def goodKey (s : String) : Bool :=
  !s.data.isEmpty
    && s.data.all (fun c => c.isAlphanum || c = '_')
    && !s.data.all (fun c => c.isDigit)

/-- A good segment: literals carry no brace characters, fields carry a
well-formed key. -/
def goodSeg : Seg → Bool
  | .lit s => s.data.all (fun c => !(c = '{') && !(c = '}'))
  | .field k => goodKey k

/-- The text of a segment list. -/
def segsChars : List Seg → List Char
  | [] => []
  | .lit s :: rest => s.data ++ segsChars rest
  | .field k :: rest => '{' :: (k.data ++ ('}' :: segsChars rest))

/-- The skeleton string of a segment list. -/
def segsStr (segs : List Seg) : String :=
  String.mk (segsChars segs)

/-- The placeholder keys of a skeleton, in scan order. -/
def fieldsOf : List Seg → List String
  | [] => []
  | .lit _ :: rest => fieldsOf rest
  | .field k :: rest => k :: fieldsOf rest

/-- Segment-wise rendering: substitute each field from the answers,
failing on the first field without an answer. -/
def renderSegs (answers : List (String × String)) : List Seg → Except FmtErr (List Char)
  | [] => .ok []
  | .lit s :: rest => (renderSegs answers rest).map (fun t => s.data ++ t)
  | .field k :: rest =>
      match lookupA answers k with
      | none => .error (.keyError k)
      | some v => (renderSegs answers rest).map (fun t => v.data ++ t)

/-- Total segment substitution (unanswered fields become empty; used
only to name the output of a successful render). -/
def substSegs (answers : List (String × String)) : List Seg → List Char
  | [] => []
  | .lit s :: rest => s.data ++ substSegs answers rest
  | .field k :: rest => ((lookupA answers k).getD "").data ++ substSegs answers rest

/-- The first key of a list that has no answer. -/
def firstMissing (answers : List (String × String)) : List String → Option String
  | [] => none
  | k :: rest =>
      if (lookupA answers k).isNone then some k else firstMissing answers rest

/-- No brace character occurs in the run. -/
def braceFreeB (cs : List Char) : Bool :=
  cs.all (fun c => !(c = '{') && !(c = '}'))

end Madlibs

namespace Madlibs

/-!
### Concrete instances used by witnesses and counterexamples
-/

/-- Eight blanks with distinct well-formed keys (concrete scenario A). -/
def exBlanks : List (String × String) :=
  [("animal", "An animal:"), ("adjective", "An adjective:"), ("verb", "A verb:"),
   ("noun", "A noun:"), ("place", "A place:"), ("food", "A food:"),
   ("color", "A color:"), ("sound", "A sound:")]

/-- A skeleton referencing each of the eight keys exactly once. -/
def exSegs : List Seg :=
  [.lit "A wild ", .field "animal", .lit " was ", .field "adjective",
   .lit " and chose to ", .field "verb", .lit " a ", .field "noun",
   .lit " in ", .field "place", .lit " eating ", .field "food",
   .lit " under a ", .field "color", .lit " sky with a ", .field "sound",
   .lit "."]

/-- One answer per key, in presentation order. -/
def exAnswers : List (String × String) :=
  [("animal", "walrus"), ("adjective", "smug"), ("verb", "juggle"),
   ("noun", "hat"), ("place", "Paris"), ("food", "pie"),
   ("color", "teal"), ("sound", "boom")]

/-- Eight otherwise well-formed blanks whose first two repeat the key
`animal`. -/
def dupBlanks : List (String × String) :=
  [("animal", "First animal:"), ("animal", "Second animal:"), ("verb", "A verb:"),
   ("noun", "A noun:"), ("place", "A place:"), ("food", "A food:"),
   ("color", "A color:"), ("sound", "A sound:")]

/-- Eight otherwise well-formed blanks, the first of which has an empty
key. -/
def badKeyBlanks : List (String × String) :=
  [("", "Empty key:"), ("adjective", "An adjective:"), ("verb", "A verb:"),
   ("noun", "A noun:"), ("place", "A place:"), ("food", "A food:"),
   ("color", "A color:"), ("sound", "A sound:")]

/-- Seven well-formed blanks (concrete scenario B). -/
def sevenBlanks : List (String × String) :=
  [("animal", "An animal:"), ("adjective", "An adjective:"), ("verb", "A verb:"),
   ("noun", "A noun:"), ("place", "A place:"), ("food", "A food:"),
   ("color", "A color:")]

/-- A skeleton referencing the key `ghost` (concrete scenario C). -/
def ghostSegs : List Seg :=
  [.lit "A spooky ", .field "ghost", .lit " appears."]

/-- Raw generative-source text: a fenced block whose first line is the
language tag `json` followed by the payload (concrete scenario D's
standard layout). -/
def fencedTagged : String :=
  "```json\n\x7B\"title\": \"T\"\x7D\n```"

/-- The inner payload of `fencedTagged`, without fence or tag. -/
def innerPayload : String :=
  "\x7B\"title\": \"T\"\x7D"

end Madlibs

namespace Madlibs

/-!
### Behaviour of `parse_template_payload` on well-shaped payloads
-/

/-- The blank-building comprehension succeeds on any array of objects
that carry `key` and `prompt` fields, whatever the field values are. -/
theorem readBlanks_map_pairs (items : List (Json × Json)) :
    readBlanks (items.map fun p => Json.obj [("key", p.1), ("prompt", p.2)]) =
      .ok (items.map fun p => Blank.mk p.1 p.2) := by
  induction items with
  | nil => rfl
  | cons p rest ih =>
      simp [readBlanks, readBlank, getItem, dictGet, ih]

/-- The `try` body of `parse_template_payload` succeeds on any payload
with the three top-level fields and well-shaped blank objects; no key
uniqueness, key syntax, or field-type condition is involved. -/
theorem try_build_mkPayload (title skel : Json) (items : List (Json × Json)) :
    try_build_template (mkPayload title items skel) =
      .ok ⟨title, items.map (fun p => Blank.mk p.1 p.2), skel⟩ := by
  simp [try_build_template, mkPayload, getItem, dictGet, pyIter, readBlanks_map_pairs]

/-- `parse_template_payload` accepts any well-shaped payload whose
blank count is within the hard-coded bound. -/
theorem parse_mkPayload_ok (title skel : Json) (items : List (Json × Json))
    (hlo : 8 ≤ items.length) (hhi : items.length ≤ 10) :
    parse_template_payload (mkPayload title items skel) =
      .ok ⟨title, items.map (fun p => Blank.mk p.1 p.2), skel⟩ := by
  simp only [parse_template_payload, try_build_mkPayload, List.length_map]
  rw [if_pos ⟨hlo, hhi⟩]

/-- `parse_template_payload` on a fully string-typed payload. -/
theorem parse_mkPayloadS_ok (title skel : String) (bs : List (String × String))
    (hlo : 8 ≤ bs.length) (hhi : bs.length ≤ 10) :
    parse_template_payload (mkPayloadS title bs skel) =
      .ok ⟨.str title, bs.map (fun p => Blank.mk (.str p.1) (.str p.2)), .str skel⟩ := by
  have h := parse_mkPayload_ok (.str title) (.str skel)
      (bs.map fun p => (Json.str p.1, Json.str p.2))
      (by simpa using hlo) (by simpa using hhi)
  simpa [mkPayloadS, List.map_map, Function.comp] using h

/-- `parse_template_payload` rejects any well-shaped payload whose
blank count is out of bounds, with the fixed count-free message. -/
theorem parse_mkPayload_badCount (title skel : Json) (items : List (Json × Json))
    (h : items.length < 8 ∨ 10 < items.length) :
    parse_template_payload (mkPayload title items skel) =
      .error (.valueError "Template must contain between 8 and 10 blanks.") := by
  simp only [parse_template_payload, try_build_mkPayload, List.length_map]
  rw [if_neg (by omega)]

/-- A payload object lacking any of the three required fields makes
`parse_template_payload` fail with the fixed field-free message. -/
theorem parse_missing_field (fields : List (String × Json))
    (hmiss : dictGet fields "title" = none ∨ dictGet fields "blanks" = none ∨
      dictGet fields "skeleton" = none) :
    parse_template_payload (.obj fields) =
      .error (.valueError "Gemini response JSON missed required fields.") := by
  rcases hmiss with hm | hm | hm
  · cases hb : getItem (.obj fields) "blanks" with
    | error e => simp [parse_template_payload, try_build_template, hb]
    | ok bd =>
      cases hi : pyIter bd with
      | error e => simp [parse_template_payload, try_build_template, hb, hi]
      | ok items =>
        cases hr : readBlanks items with
        | error e => simp [parse_template_payload, try_build_template, hb, hi, hr]
        | ok blanks =>
          have ht : getItem (.obj fields) "title" = .error (.keyError "title") := by
            simp [getItem, hm]
          simp [parse_template_payload, try_build_template, hb, hi, hr, ht]
  · have hb : getItem (.obj fields) "blanks" = .error (.keyError "blanks") := by
      simp [getItem, hm]
    simp [parse_template_payload, try_build_template, hb]
  · cases hb : getItem (.obj fields) "blanks" with
    | error e => simp [parse_template_payload, try_build_template, hb]
    | ok bd =>
      cases hi : pyIter bd with
      | error e => simp [parse_template_payload, try_build_template, hb, hi]
      | ok items =>
        cases hr : readBlanks items with
        | error e => simp [parse_template_payload, try_build_template, hb, hi, hr]
        | ok blanks =>
          cases ht : getItem (.obj fields) "title" with
          | error e => simp [parse_template_payload, try_build_template, hb, hi, hr, ht]
          | ok title =>
            have hs : getItem (.obj fields) "skeleton" = .error (.keyError "skeleton") := by
              simp [getItem, hm]
            simp [parse_template_payload, try_build_template, hb, hi, hr, ht, hs]

end Madlibs

namespace Madlibs

/-- Claim C2 counterexample: an otherwise well-formed payload whose
blanks repeat the key `animal` passes validation and produces a
template — `parse_template_payload` has no duplicate-key check, so it
does not fail with any duplicate-key error. -/
theorem claim_C2_counterexample :
    parse_template_payload (mkPayloadS "Dup" dupBlanks "A {animal} story.") =
      .ok ⟨.str "Dup", dupBlanks.map (fun p => Blank.mk (.str p.1) (.str p.2)),
           .str "A {animal} story."⟩ := by
  rfl

/-- Claim C2 (amended): validation performs no key-uniqueness check —
any well-shaped payload with a repeated key and an in-range blank count
is accepted, and the produced model keeps all blanks (duplicates
included) in declaration order. -/
theorem claim_C2_duplicate_keys_accepted (title skel : String) (bs : List (String × String))
    (hdup : ¬ (bs.map Prod.fst).Nodup) (hlo : 8 ≤ bs.length) (hhi : bs.length ≤ 10) :
    parse_template_payload (mkPayloadS title bs skel) =
      .ok ⟨.str title, bs.map (fun p => Blank.mk (.str p.1) (.str p.2)), .str skel⟩ :=
  parse_mkPayloadS_ok title skel bs hlo hhi

/-- Witness for claim C2's amended theorem at the duplicate-key
input. -/
theorem claim_C2_duplicate_keys_accepted_witness :
    (¬ (dupBlanks.map Prod.fst).Nodup) ∧ 8 ≤ dupBlanks.length ∧ dupBlanks.length ≤ 10 ∧
    parse_template_payload (mkPayloadS "Dup" dupBlanks "A {animal} story.") =
      .ok ⟨.str "Dup", dupBlanks.map (fun p => Blank.mk (.str p.1) (.str p.2)),
           .str "A {animal} story."⟩ :=
  ⟨by decide, by decide, by decide,
   claim_C2_duplicate_keys_accepted "Dup" "A {animal} story." dupBlanks
     (by decide) (by decide) (by decide)⟩

/-- Claim C3 counterexample: a payload whose first blank has the empty
key passes validation and produces a template — no key well-formedness
check exists, so no bad-key error is raised. -/
theorem claim_C3_counterexample :
    parse_template_payload (mkPayloadS "Bad" badKeyBlanks "A {adjective} tale.") =
      .ok ⟨.str "Bad", badKeyBlanks.map (fun p => Blank.mk (.str p.1) (.str p.2)),
           .str "A {adjective} tale."⟩ := by
  rfl

/-- Claim C3 (amended): validation performs no identifier check on
keys — any well-shaped payload with an in-range blank count is
accepted even when some key is empty, contains foreign characters, or
is purely numeric. -/
theorem claim_C3_bad_keys_accepted (title skel : String) (bs : List (String × String))
    (hbad : (bs.map Prod.fst).all goodKey = false) (hlo : 8 ≤ bs.length)
    (hhi : bs.length ≤ 10) :
    parse_template_payload (mkPayloadS title bs skel) =
      .ok ⟨.str title, bs.map (fun p => Blank.mk (.str p.1) (.str p.2)), .str skel⟩ :=
  parse_mkPayloadS_ok title skel bs hlo hhi

/-- Witness for claim C3's amended theorem at the empty-key input. -/
theorem claim_C3_bad_keys_accepted_witness :
    (badKeyBlanks.map Prod.fst).all goodKey = false ∧ 8 ≤ badKeyBlanks.length ∧
    badKeyBlanks.length ≤ 10 ∧
    parse_template_payload (mkPayloadS "Bad" badKeyBlanks "A {adjective} tale.") =
      .ok ⟨.str "Bad", badKeyBlanks.map (fun p => Blank.mk (.str p.1) (.str p.2)),
           .str "A {adjective} tale."⟩ :=
  ⟨by decide, by decide, by decide,
   claim_C3_bad_keys_accepted "Bad" "A {adjective} tale." badKeyBlanks
     (by decide) (by decide) (by decide)⟩

/-- Claim C4 counterexample: the otherwise-valid seven-blank payload is
rejected, but with the fixed message
`Template must contain between 8 and 10 blanks.` — no
`blank-count:7` reason code appears anywhere in the error. -/
theorem claim_C4_counterexample :
    parse_template_payload (mkPayloadS "Seven" sevenBlanks "A {animal} story.") =
      .error (.valueError "Template must contain between 8 and 10 blanks.") ∧
    containsSeq "blank-count:7".data
      "Template must contain between 8 and 10 blanks.".data = false :=
  ⟨by rfl, by decide⟩

/-- Claim C4 (amended): any well-shaped payload with `n < 8` or
`n > 10` blanks is rejected, but with a fixed error message that does
not contain the count (no `blank-count:` reason code). -/
theorem claim_C4_count_rejected_fixed_message (title skel : Json)
    (items : List (Json × Json)) (h : items.length < 8 ∨ 10 < items.length) :
    parse_template_payload (mkPayload title items skel) =
      .error (.valueError "Template must contain between 8 and 10 blanks.") ∧
    containsSeq "blank-count:".data
      "Template must contain between 8 and 10 blanks.".data = false :=
  ⟨parse_mkPayload_badCount title skel items h, by decide⟩

/-- Witness for claim C4's amended theorem at the seven-blank input. -/
theorem claim_C4_count_rejected_fixed_message_witness :
    ((sevenBlanks.map fun p => (Json.str p.1, Json.str p.2)).length < 8 ∨
      10 < (sevenBlanks.map fun p => (Json.str p.1, Json.str p.2)).length) ∧
    parse_template_payload (mkPayload (.str "Seven")
        (sevenBlanks.map fun p => (Json.str p.1, Json.str p.2)) (.str "A {animal} story.")) =
      .error (.valueError "Template must contain between 8 and 10 blanks.") ∧
    containsSeq "blank-count:".data
      "Template must contain between 8 and 10 blanks.".data = false :=
  ⟨by decide,
   (claim_C4_count_rejected_fixed_message (.str "Seven") (.str "A {animal} story.")
      (sevenBlanks.map fun p => (Json.str p.1, Json.str p.2)) (by decide)).1,
   (claim_C4_count_rejected_fixed_message (.str "Seven") (.str "A {animal} story.")
      (sevenBlanks.map fun p => (Json.str p.1, Json.str p.2)) (by decide)).2⟩

/-- Claim C5 counterexample: a payload whose `title` is the number `5`
(with well-formed blanks and skeleton) is accepted, and the resulting
model stores the wrong-typed title unchecked — no missing-field or
type error is raised. -/
theorem claim_C5_counterexample :
    parse_template_payload (mkPayload (Json.num 5)
        (exBlanks.map fun p => (Json.str p.1, Json.str p.2)) (Json.str "A {animal} story.")) =
      .ok ⟨Json.num 5, exBlanks.map (fun p => Blank.mk (.str p.1) (.str p.2)),
           Json.str "A {animal} story."⟩ := by
  rfl

/-- Claim C5 (amended): a payload object genuinely lacking `title`,
`blanks` or `skeleton` is rejected, but with the fixed message
`Gemini response JSON missed required fields.` that does not name the
field; wrong-typed `title` or `skeleton` values are accepted unchecked
(see the counterexample). -/
theorem claim_C5_missing_field_fixed_message (fields : List (String × Json))
    (hmiss : dictGet fields "title" = none ∨ dictGet fields "blanks" = none ∨
      dictGet fields "skeleton" = none) :
    parse_template_payload (.obj fields) =
      .error (.valueError "Gemini response JSON missed required fields.") :=
  parse_missing_field fields hmiss

/-- Witness for claim C5's amended theorem at a payload lacking
`title`. -/
theorem claim_C5_missing_field_fixed_message_witness :
    dictGet [("blanks", Json.arr []), ("skeleton", Json.str "story")] "title" = none ∧
    parse_template_payload (.obj [("blanks", Json.arr []), ("skeleton", Json.str "story")]) =
      .error (.valueError "Gemini response JSON missed required fields.") :=
  ⟨rfl, claim_C5_missing_field_fixed_message _ (Or.inl rfl)⟩

/-- Claim C7 (code bug evidence): on a fenced block whose first line is
the `json` language tag — the layout fenced generative output actually
uses — `strip_code_fence` keeps the tag glued to the payload instead of
removing it, so the sanitized text differs from the unfenced payload
(which is returned unchanged) and the subsequent JSON parse cannot
succeed identically. -/
theorem claim_C7_language_tag_kept :
    strip_code_fence fencedTagged = "json\n" ++ innerPayload ∧
    strip_code_fence innerPayload = innerPayload ∧
    ("json\n" ++ innerPayload) ≠ innerPayload :=
  ⟨by rfl, by rfl, by decide⟩

/-- Claim C9: rendering is deterministic and depends only on its
declared inputs — any two templates with the same skeleton render
identically on the same answers (in particular, repeated invocations on
identical inputs agree; the embedding is pure, mirroring the
side-effect-free source). -/
theorem claim_C9_render_deterministic (t₁ t₂ : StoryTemplate)
    (answers : List (String × String)) (h : t₁.skeleton = t₂.skeleton) :
    t₁.build answers = t₂.build answers := by
  unfold StoryTemplate.build
  rw [h]

/-- Witness for claim C9 at two templates differing in title only. -/
theorem claim_C9_render_deterministic_witness :
    (StoryTemplate.mk (Json.str "A") [] (Json.str "x {y} z")).skeleton =
      (StoryTemplate.mk (Json.str "B") [] (Json.str "x {y} z")).skeleton ∧
    (StoryTemplate.mk (Json.str "A") [] (Json.str "x {y} z")).build [("y", "mid")] =
      (StoryTemplate.mk (Json.str "B") [] (Json.str "x {y} z")).build [("y", "mid")] :=
  ⟨rfl, claim_C9_render_deterministic _ _ _ rfl⟩

end Madlibs

namespace Madlibs

/-!
### The format scanner on segment-shaped skeletons
-/

/-- A non-brace character in literal mode passes through. -/
theorem fmtGo_lit_cons (a : List (String × String)) (c : Char) (cs : List Char)
    (h1 : ¬ c = '{') (h2 : ¬ c = '}') :
    fmtGo a none (c :: cs) = (fmtGo a none cs).map (fun t => c :: t) := by
  cases cs with
  | nil => simp [fmtGo, h1, h2, Except.map]
  | cons d ds => simp [fmtGo, h1, h2]

/-- A brace-free literal run passes through. -/
theorem fmtGo_append_lit (a : List (String × String)) (l tail : List Char)
    (h : ∀ c ∈ l, ¬ c = '{' ∧ ¬ c = '}') :
    fmtGo a none (l ++ tail) = (fmtGo a none tail).map (fun t => l ++ t) := by
  induction l with
  | nil => cases hf : fmtGo a none tail <;> simp [hf, Except.map]
  | cons c l' ih =>
      have hc := h c (List.mem_cons_self c l')
      rw [List.cons_append, fmtGo_lit_cons a c _ hc.1 hc.2,
        ih (fun x hx => h x (List.mem_cons_of_mem c hx))]
      cases fmtGo a none tail <;> simp [Except.map]

/-- Field mode consumes the name up to the closing brace and resolves
it. -/
theorem fmtGo_field_scan (a : List (String × String)) (kcs : List Char)
    (acc tail : List Char) (hk : ∀ c ∈ kcs, ¬ c = '}') :
    fmtGo a (some acc) (kcs ++ '}' :: tail) =
      (match lookupA a (String.mk (acc.reverse ++ kcs)) with
       | none => Except.error (.keyError (String.mk (acc.reverse ++ kcs)))
       | some v => (fmtGo a none tail).map (fun t => v.data ++ t)) := by
  induction kcs generalizing acc with
  | nil => simp [fmtGo]
  | cons c k' ih =>
      have hc : ¬ c = '}' := hk c (List.mem_cons_self c k')
      rw [List.cons_append,
        show fmtGo a (some acc) (c :: (k' ++ '}' :: tail)) =
            fmtGo a (some (c :: acc)) (k' ++ '}' :: tail) by simp [fmtGo, hc],
        ih (c :: acc) (fun x hx => hk x (List.mem_cons_of_mem c hx))]
      simp [List.reverse_cons, List.append_assoc]

/-- A well-formed key is non-empty and brace-free. -/
theorem goodKey_chars (k : String) (h : goodKey k = true) :
    k.data ≠ [] ∧ ∀ c ∈ k.data, ¬ c = '{' ∧ ¬ c = '}' := by
  unfold goodKey at h
  simp only [Bool.and_eq_true] at h
  obtain ⟨⟨hne, hall⟩, -⟩ := h
  constructor
  · intro hnil
    rw [hnil] at hne
    simp at hne
  · intro c hc
    have h2 := List.all_eq_true.mp hall c hc
    refine ⟨?_, ?_⟩ <;> intro heq <;> subst heq <;> revert h2 <;> decide

/-- On a segment-shaped skeleton, the CPython format scanner coincides
with segment-wise substitution. -/
theorem fmtGo_segs (a : List (String × String)) (segs : List Seg)
    (h : segs.all goodSeg = true) :
    fmtGo a none (segsChars segs) = renderSegs a segs := by
  induction segs with
  | nil => rfl
  | cons s rest ih =>
      rw [List.all_cons, Bool.and_eq_true] at h
      obtain ⟨hs, hrest⟩ := h
      cases s with
      | lit l =>
          have hl : ∀ c ∈ l.data, ¬ c = '{' ∧ ¬ c = '}' := by
            intro c hc
            simp only [goodSeg] at hs
            have h2 := List.all_eq_true.mp hs c hc
            simp only [Bool.and_eq_true, Bool.not_eq_true', decide_eq_false_iff_not] at h2
            exact h2
          show fmtGo a none (l.data ++ segsChars rest) = _
          rw [fmtGo_append_lit a _ _ hl, ih hrest]
          rfl
      | field k =>
          simp only [goodSeg] at hs
          obtain ⟨hne, hbrace⟩ := goodKey_chars k hs
          obtain ⟨c₀, k', hk⟩ : ∃ c₀ k', k.data = c₀ :: k' := by
            cases hd : k.data with
            | nil => exact absurd hd hne
            | cons x y => exact ⟨x, y, rfl⟩
          have hc₀ : ¬ c₀ = '{' := (hbrace c₀ (by rw [hk]; exact List.mem_cons_self _ _)).1
          show fmtGo a none ('{' :: (k.data ++ '}' :: segsChars rest)) = _
          rw [hk, List.cons_append,
            show fmtGo a none ('{' :: c₀ :: (k' ++ '}' :: segsChars rest)) =
                fmtGo a (some []) (c₀ :: (k' ++ '}' :: segsChars rest)) by simp [fmtGo, hc₀],
            show (c₀ :: (k' ++ '}' :: segsChars rest)) =
                ((c₀ :: k') ++ '}' :: segsChars rest) by simp,
            fmtGo_field_scan a (c₀ :: k') [] (segsChars rest)
              (fun c hc => (hbrace c (by rw [hk]; exact hc)).2)]
          simp only [List.reverse_nil, List.nil_append]
          rw [← hk, show String.mk k.data = k from rfl, ih hrest]
          rfl

/-- A key bound in the answer list resolves. -/
theorem lookupA_isSome_of_mem (a : List (String × String)) (k : String)
    (h : k ∈ a.map Prod.fst) : (lookupA a k).isSome = true := by
  induction a with
  | nil => simp at h
  | cons p rest ih =>
      obtain ⟨k', v'⟩ := p
      by_cases hp : k' = k
      · simp [lookupA, hp]
      · have : k ∈ rest.map Prod.fst := by
          rcases List.mem_cons.mp h with h1 | h1
          · exact absurd h1.symm hp
          · exact h1
        simp [lookupA, hp, ih this]

/-- A resolved value comes from the answer list. -/
theorem lookupA_mem_values (a : List (String × String)) (k v : String)
    (h : lookupA a k = some v) : v ∈ a.map Prod.snd := by
  induction a with
  | nil => simp [lookupA] at h
  | cons p rest ih =>
      obtain ⟨k', v'⟩ := p
      by_cases hp : k' = k
      · simp [lookupA, hp] at h
        simp [h]
      · simp only [lookupA, hp, if_false, if_neg hp] at h
        simp [ih h]

/-- With every field covered, segment rendering succeeds and yields the
total substitution. -/
theorem renderSegs_ok (a : List (String × String)) (segs : List Seg)
    (hcov : (fieldsOf segs).all (fun k => (lookupA a k).isSome) = true) :
    renderSegs a segs = .ok (substSegs a segs) := by
  induction segs with
  | nil => rfl
  | cons s rest ih =>
      cases s with
      | lit l =>
          have ihr := ih hcov
          simp [renderSegs, ihr, substSegs, Except.map]
      | field k =>
          have h1 : (lookupA a k).isSome = true ∧
              (fieldsOf rest).all (fun k => (lookupA a k).isSome) = true := by
            simpa [fieldsOf, List.all_cons, Bool.and_eq_true] using hcov
          obtain ⟨hk, hrest⟩ := h1
          obtain ⟨v, hv⟩ := Option.isSome_iff_exists.mp hk
          simp [renderSegs, hv, ih hrest, substSegs, Except.map, Option.getD]

/-- The scanner fails exactly on the first uncovered field, naming it. -/
theorem renderSegs_err_firstMissing (a : List (String × String)) (segs : List Seg)
    (k : String) (hm : firstMissing a (fieldsOf segs) = some k) :
    renderSegs a segs = .error (.keyError k) ∧ lookupA a k = none := by
  induction segs with
  | nil => exact absurd hm (by simp [firstMissing, fieldsOf])
  | cons s rest ih =>
      cases s with
      | lit l =>
          obtain ⟨h1, h2⟩ := ih hm
          exact ⟨by simp [renderSegs, h1, Except.map], h2⟩
      | field k' =>
          by_cases hk' : (lookupA a k').isNone
          · have hkk : k' = k := by
              simp only [fieldsOf, firstMissing, hk', if_pos, if_true, Option.some.injEq] at hm
              exact hm
            subst hkk
            have hnone := Option.isNone_iff_eq_none.mp hk'
            exact ⟨by simp [renderSegs, hnone], hnone⟩
          · have hm' : firstMissing a (fieldsOf rest) = some k := by
              simpa [fieldsOf, firstMissing, hk'] using hm
            obtain ⟨h1, h2⟩ := ih hm'
            obtain ⟨v, hv⟩ : ∃ v, lookupA a k' = some v := by
              cases hl : lookupA a k' with
              | none => exact absurd (by simp [hl]) hk'
              | some v => exact ⟨v, rfl⟩
            exact ⟨by simp [renderSegs, hv, h1, Except.map], h2⟩

/-- Good segments and brace-free answers yield brace-free output. -/
theorem substSegs_braceFree (a : List (String × String)) (segs : List Seg)
    (hg : segs.all goodSeg = true)
    (hv : (a.map Prod.snd).all (fun v => braceFreeB v.data) = true) :
    braceFreeB (substSegs a segs) = true := by
  induction segs with
  | nil => rfl
  | cons s rest ih =>
      rw [List.all_cons, Bool.and_eq_true] at hg
      obtain ⟨hs, hrest⟩ := hg
      cases s with
      | lit l =>
          have hl : braceFreeB l.data = true := hs
          simp only [substSegs, braceFreeB, List.all_append, Bool.and_eq_true]
          exact ⟨hl, ih hrest⟩
      | field k =>
          cases hl : lookupA a k with
          | none => simpa [substSegs, hl, braceFreeB, Option.getD] using ih hrest
          | some v =>
              have hvv := List.all_eq_true.mp hv v (lookupA_mem_values a k v hl)
              simp only [substSegs, hl, Option.getD, braceFreeB, List.all_append,
                Bool.and_eq_true]
              exact ⟨hvv, ih hrest⟩

/-- Building from a segment-shaped skeleton is segment rendering. -/
theorem build_seg_skeleton (title : Json) (blanks : List Blank) (segs : List Seg)
    (a : List (String × String)) (hsegs : segs.all goodSeg = true) :
    (StoryTemplate.mk title blanks (.str (segsStr segs))).build a =
      (match renderSegs a segs with
       | .ok cs => Except.ok (String.mk cs)
       | .error e => Except.error (.fmtErr e)) := by
  show renderSkeleton a (.str (segsStr segs)) = _
  simp only [renderSkeleton, pyFormat]
  rw [show (segsStr segs).data = segsChars segs from rfl, fmtGo_segs a segs hsegs]
  cases renderSegs a segs <;> simp [Except.map]

end Madlibs

namespace Madlibs

/-- Removing an entry whose key differs from the one looked up does not
change the lookup. -/
theorem lookupA_extend_ne (l₁ l₂ : List (String × String)) (k v : String)
    (f : String) (hne : ¬ f = k) :
    lookupA (l₁ ++ (k, v) :: l₂) f = lookupA (l₁ ++ l₂) f := by
  induction l₁ with
  | nil =>
      simp only [List.nil_append, lookupA]
      rw [if_neg (fun h => hne h.symm)]
  | cons p rest ih =>
      obtain ⟨k', v'⟩ := p
      by_cases h : k' = f <;> simp [lookupA, h, ih]

/-- Segment rendering only consults the answers at the skeleton's own
field keys. -/
theorem renderSegs_congr (a₁ a₂ : List (String × String)) (segs : List Seg)
    (hagree : ∀ f ∈ fieldsOf segs, lookupA a₁ f = lookupA a₂ f) :
    renderSegs a₁ segs = renderSegs a₂ segs ∧ substSegs a₁ segs = substSegs a₂ segs := by
  induction segs with
  | nil => exact ⟨rfl, rfl⟩
  | cons s rest ih =>
      cases s with
      | lit l =>
          obtain ⟨h1, h2⟩ := ih hagree
          exact ⟨by simp [renderSegs, h1], by simp [substSegs, h2]⟩
      | field k =>
          have hk := hagree k (by simp [fieldsOf])
          obtain ⟨h1, h2⟩ := ih (fun f hf => hagree f (by simp [fieldsOf]; exact Or.inr hf))
          exact ⟨by simp [renderSegs, hk, h1], by simp [substSegs, hk, h2]⟩

/-- Claim C1: a well-shaped payload with an in-range number of blanks,
distinct well-formed keys, and a skeleton referencing each key exactly
once as a placeholder validates into the expected model, and rendering
it with one answer per key succeeds, replacing every placeholder.  With
the answers themselves free of brace characters (they are inserted
verbatim, so a brace-carrying answer would trivially re-introduce
marker characters), the output contains no placeholder marker at
all. -/
theorem claim_C1_valid_template_renders (title : String) (bs : List (String × String))
    (segs : List Seg) (answers : List (String × String))
    (hsegs : segs.all goodSeg = true)
    (href : List.Perm (fieldsOf segs) (bs.map Prod.fst))
    (hkeys : (bs.map Prod.fst).all goodKey = true)
    (hnodup : (bs.map Prod.fst).Nodup)
    (hlo : 8 ≤ bs.length) (hhi : bs.length ≤ 10)
    (hans : answers.map Prod.fst = bs.map Prod.fst)
    (hvals : (answers.map Prod.snd).all (fun v => braceFreeB v.data) = true) :
    parse_template_payload (mkPayloadS title bs (segsStr segs)) =
        .ok ⟨.str title, bs.map (fun p => Blank.mk (.str p.1) (.str p.2)),
             .str (segsStr segs)⟩ ∧
    (StoryTemplate.mk (.str title) (bs.map fun p => Blank.mk (.str p.1) (.str p.2))
        (.str (segsStr segs))).build answers = .ok (String.mk (substSegs answers segs)) ∧
    braceFreeB (substSegs answers segs) = true := by
  refine ⟨parse_mkPayloadS_ok title (segsStr segs) bs hlo hhi, ?_,
    substSegs_braceFree answers segs hsegs hvals⟩
  have hcov : (fieldsOf segs).all (fun k => (lookupA answers k).isSome) = true := by
    rw [List.all_eq_true]
    intro k hk
    have hk2 : k ∈ answers.map Prod.fst := by
      rw [hans]
      exact href.mem_iff.mp hk
    exact lookupA_isSome_of_mem answers k hk2
  have hb := build_seg_skeleton (.str title)
    (bs.map fun p => Blank.mk (.str p.1) (.str p.2)) segs answers hsegs
  rw [renderSegs_ok answers segs hcov] at hb
  exact hb

/-- Witness for claim C1 at the eight-blank scenario-A instance. -/
theorem claim_C1_valid_template_renders_witness :
    exSegs.all goodSeg = true ∧
    (exBlanks.map Prod.fst).all goodKey = true ∧
    (exBlanks.map Prod.fst).Nodup ∧
    8 ≤ exBlanks.length ∧ exBlanks.length ≤ 10 ∧
    exAnswers.map Prod.fst = exBlanks.map Prod.fst ∧
    (exAnswers.map Prod.snd).all (fun v => braceFreeB v.data) = true ∧
    (parse_template_payload (mkPayloadS "Creature Feature" exBlanks (segsStr exSegs)) =
        .ok ⟨.str "Creature Feature", exBlanks.map (fun p => Blank.mk (.str p.1) (.str p.2)),
             .str (segsStr exSegs)⟩ ∧
     (StoryTemplate.mk (.str "Creature Feature")
         (exBlanks.map fun p => Blank.mk (.str p.1) (.str p.2))
         (.str (segsStr exSegs))).build exAnswers =
        .ok (String.mk (substSegs exAnswers exSegs)) ∧
     braceFreeB (substSegs exAnswers exSegs) = true) :=
  ⟨by decide, by decide, by decide, by decide, by decide, by decide, by decide,
   claim_C1_valid_template_renders "Creature Feature" exBlanks exSegs exAnswers
     (by decide)
     (by rw [show fieldsOf exSegs = exBlanks.map Prod.fst from by decide])
     (by decide) (by decide) (by decide) (by decide) (by decide) (by decide)⟩

/-- Claim C6: if the skeleton contains a placeholder whose key has no
entry in the answers, rendering fails with the `KeyError` naming the
first such key (and `build_story` surfaces it as the
`RuntimeError("Missing answer for placeholder: ...")` that quotes the
key); no output with an empty or literal substitution is returned. -/
theorem claim_C6_unresolved_placeholder (title : Json) (blanks : List Blank)
    (segs : List Seg) (answers : List (String × String)) (k : String)
    (hsegs : segs.all goodSeg = true)
    (hmiss : firstMissing answers (fieldsOf segs) = some k) :
    lookupA answers k = none ∧
    (StoryTemplate.mk title blanks (.str (segsStr segs))).build answers =
        .error (.fmtErr (.keyError k)) ∧
    build_story_with (StoryTemplate.mk title blanks (.str (segsStr segs))) answers =
        .error (.runtimeError ("Missing answer for placeholder: " ++ squote ++ k ++ squote)) := by
  obtain ⟨h1, h2⟩ := renderSegs_err_firstMissing answers segs k hmiss
  have hb := build_seg_skeleton title blanks segs answers hsegs
  rw [h1] at hb
  exact ⟨h2, hb, by simp [build_story_with, hb]⟩

/-- Witness for claim C6 at concrete scenario C (`ghost`). -/
theorem claim_C6_unresolved_placeholder_witness :
    ghostSegs.all goodSeg = true ∧
    firstMissing exAnswers (fieldsOf ghostSegs) = some "ghost" ∧
    (lookupA exAnswers "ghost" = none ∧
     (StoryTemplate.mk (Json.str "Spooky") [] (.str (segsStr ghostSegs))).build exAnswers =
        .error (.fmtErr (.keyError "ghost")) ∧
     build_story_with (StoryTemplate.mk (Json.str "Spooky") [] (.str (segsStr ghostSegs)))
         exAnswers =
        .error (.runtimeError
          ("Missing answer for placeholder: " ++ squote ++ "ghost" ++ squote))) :=
  ⟨by decide, by decide,
   claim_C6_unresolved_placeholder (Json.str "Spooky") [] ghostSegs exAnswers "ghost"
     (by decide) (by decide)⟩

/-- Claim C10: an answer bound to no placeholder is silently ignored —
with every placeholder key covered, rendering succeeds and produces the
same output whether or not the unused entry is present; no
unused-answer error exists. -/
theorem claim_C10_unused_answers_ignored (title : Json) (blanks : List Blank)
    (segs : List Seg) (l₁ l₂ : List (String × String)) (k v : String)
    (hsegs : segs.all goodSeg = true)
    (hk : (fieldsOf segs).all (fun f => !(f == k)) = true)
    (hcov : (fieldsOf segs).all (fun f => (lookupA (l₁ ++ l₂) f).isSome) = true) :
    (StoryTemplate.mk title blanks (.str (segsStr segs))).build (l₁ ++ (k, v) :: l₂) =
        .ok (String.mk (substSegs (l₁ ++ l₂) segs)) ∧
    (StoryTemplate.mk title blanks (.str (segsStr segs))).build (l₁ ++ l₂) =
        .ok (String.mk (substSegs (l₁ ++ l₂) segs)) := by
  have hagree : ∀ f ∈ fieldsOf segs, lookupA (l₁ ++ (k, v) :: l₂) f = lookupA (l₁ ++ l₂) f := by
    intro f hf
    have hne : ¬ f = k := by
      have := List.all_eq_true.mp hk f hf
      exact ne_of_beq_false (by simpa using this)
    exact lookupA_extend_ne l₁ l₂ k v f hne
  obtain ⟨hr, hsub⟩ := renderSegs_congr (l₁ ++ (k, v) :: l₂) (l₁ ++ l₂) segs hagree
  have h2 : renderSegs (l₁ ++ l₂) segs = .ok (substSegs (l₁ ++ l₂) segs) :=
    renderSegs_ok _ _ hcov
  have hb1 := build_seg_skeleton title blanks segs (l₁ ++ (k, v) :: l₂) hsegs
  have hb2 := build_seg_skeleton title blanks segs (l₁ ++ l₂) hsegs
  rw [hr, h2] at hb1
  rw [h2] at hb2
  exact ⟨hb1, hb2⟩

/-- Witness for claim C10: an extra `ghost` answer is ignored. -/
theorem claim_C10_unused_answers_ignored_witness :
    exSegs.all goodSeg = true ∧
    (fieldsOf exSegs).all (fun f => !(f == "ghost")) = true ∧
    (fieldsOf exSegs).all (fun f => (lookupA (exAnswers ++ []) f).isSome) = true ∧
    ((StoryTemplate.mk (Json.str "T") [] (.str (segsStr exSegs))).build
        (exAnswers ++ ("ghost", "boo") :: []) =
        .ok (String.mk (substSegs (exAnswers ++ []) exSegs)) ∧
     (StoryTemplate.mk (Json.str "T") [] (.str (segsStr exSegs))).build (exAnswers ++ []) =
        .ok (String.mk (substSegs (exAnswers ++ []) exSegs))) :=
  ⟨by decide, by decide, by decide,
   claim_C10_unused_answers_ignored (Json.str "T") [] exSegs exAnswers [] "ghost" "boo"
     (by decide) (by decide) (by decide)⟩

end Madlibs

namespace Madlibs

/-!
### Idempotence of the sanitizer
-/

/-- Starting with a non-empty pattern implies containing it. -/
theorem startsWithSeq_false_of_containsSeq_false (pat cs : List Char)
    (hpat : pat ≠ []) (h : containsSeq pat cs = false) :
    startsWithSeq pat cs = false := by
  cases cs with
  | nil =>
      cases pat with
      | nil => exact absurd rfl hpat
      | cons p ps => rfl
  | cons c cs' =>
      simp only [containsSeq, Bool.or_eq_false_iff] at h
      exact h.1

/-- Containment is preserved by prepending. -/
theorem containsSeq_append_right (pat xs ys : List Char)
    (h : containsSeq pat ys = true) : containsSeq pat (xs ++ ys) = true := by
  induction xs with
  | nil => simpa
  | cons x xs' ih => simp [containsSeq, ih]

/-- A match at the head survives appending on the right. -/
theorem startsWithSeq_append_of (pat l ys : List Char)
    (h : startsWithSeq pat l = true) : startsWithSeq pat (l ++ ys) = true := by
  induction pat generalizing l with
  | nil => rfl
  | cons p ps ih =>
      cases l with
      | nil => simp [startsWithSeq] at h
      | cons c l' =>
          simp only [startsWithSeq, Bool.and_eq_true] at h ⊢
          exact ⟨h.1, ih l' h.2⟩

/-- Containment is preserved by appending. -/
theorem containsSeq_append_left (pat xs ys : List Char)
    (h : containsSeq pat xs = true) : containsSeq pat (xs ++ ys) = true := by
  induction xs with
  | nil =>
      rw [List.nil_append]
      cases pat with
      | nil => cases ys <;> simp [containsSeq, startsWithSeq]
      | cons p ps => simp [containsSeq, startsWithSeq] at h
  | cons x xs' ih =>
      simp only [List.cons_append, containsSeq, Bool.or_eq_true] at h ⊢
      rcases h with h | h
      · exact Or.inl (startsWithSeq_append_of pat _ ys h)
      · exact Or.inr (ih h)

/-- The trimmed text sits inside the original text. -/
theorem trim_decomp (cs : List Char) :
    ∃ t₁ t₂, cs = t₁ ++ (trimChars cs ++ t₂) := by
  have h2 : (cs.dropWhile Char.isWhitespace).reverse =
      (cs.dropWhile Char.isWhitespace).reverse.takeWhile Char.isWhitespace ++
        (cs.dropWhile Char.isWhitespace).reverse.dropWhile Char.isWhitespace :=
    (List.takeWhile_append_dropWhile Char.isWhitespace _).symm
  have h4 := congrArg List.reverse h2
  rw [List.reverse_reverse, List.reverse_append] at h4
  refine ⟨cs.takeWhile Char.isWhitespace,
    ((cs.dropWhile Char.isWhitespace).reverse.takeWhile Char.isWhitespace).reverse, ?_⟩
  conv_lhs => rw [← List.takeWhile_append_dropWhile Char.isWhitespace cs, h4]
  rfl

/-- Containment in the trimmed text implies containment in the text. -/
theorem containsSeq_trim (pat cs : List Char)
    (h : containsSeq pat (trimChars cs) = true) : containsSeq pat cs = true := by
  obtain ⟨t₁, t₂, hdec⟩ := trim_decomp cs
  rw [hdec]
  exact containsSeq_append_right pat t₁ _ (containsSeq_append_left pat _ t₂ h)

/-- The element surviving at the head of a `dropWhile` fails the
predicate. -/
theorem head_dropWhile_false (p : Char → Bool) (l : List Char) (c : Char)
    (h : (l.dropWhile p).head? = some c) : p c = false := by
  induction l with
  | nil => simp [List.dropWhile] at h
  | cons x xs ih =>
      by_cases hx : p x
      · rw [List.dropWhile_cons_of_pos hx] at h
        exact ih h
      · rw [List.dropWhile_cons_of_neg hx] at h
        simp only [List.head?_cons, Option.some.injEq] at h
        rw [← h]
        exact Bool.not_eq_true _ ▸ (by simpa using hx)

/-- `dropWhile` is the identity when the head already fails the
predicate. -/
theorem dropWhile_eq_self_of_head (p : Char → Bool) (l : List Char)
    (h : ∀ c, l.head? = some c → p c = false) : l.dropWhile p = l := by
  cases l with
  | nil => rfl
  | cons x xs =>
      rw [List.dropWhile_cons_of_neg]
      simp [h x rfl]

/-- Python strip is idempotent. -/
theorem trimChars_trim (cs : List Char) : trimChars (trimChars cs) = trimChars cs := by
  have hhead : ∀ c, (trimChars cs).reverse.head? = some c → Char.isWhitespace c = false := by
    intro c hc
    rw [show (trimChars cs).reverse =
        (cs.dropWhile Char.isWhitespace).reverse.dropWhile Char.isWhitespace from by
          simp [trimChars]] at hc
    exact head_dropWhile_false _ _ _ hc
  have hlast : ∀ c, (trimChars cs).head? = some c → Char.isWhitespace c = false := by
    intro c hc
    cases he : (cs.dropWhile Char.isWhitespace).reverse.dropWhile Char.isWhitespace with
    | nil =>
        rw [show trimChars cs = ([] : List Char) from by simp [trimChars, he]] at hc
        simp at hc
    | cons y ys =>
        have h2 : (cs.dropWhile Char.isWhitespace).reverse =
            (cs.dropWhile Char.isWhitespace).reverse.takeWhile Char.isWhitespace ++
              (y :: ys) := by
          rw [← he]
          exact (List.takeWhile_append_dropWhile Char.isWhitespace _).symm
        have h3 : (trimChars cs).head? = (cs.dropWhile Char.isWhitespace).head? := by
          rw [show trimChars cs = (y :: ys).reverse from by simp [trimChars, he],
            List.head?_reverse, ← @List.getLast?_append_of_ne_nil Char
              ((cs.dropWhile Char.isWhitespace).reverse.takeWhile Char.isWhitespace)
              (y :: ys) (by simp),
            ← h2, List.getLast?_reverse]
        rw [h3] at hc
        exact head_dropWhile_false _ _ _ hc
  have h1 : (trimChars cs).dropWhile Char.isWhitespace = trimChars cs :=
    dropWhile_eq_self_of_head _ _ hlast
  have h2 : (trimChars cs).reverse.dropWhile Char.isWhitespace = (trimChars cs).reverse :=
    dropWhile_eq_self_of_head _ _ hhead
  show (((trimChars cs).dropWhile Char.isWhitespace).reverse.dropWhile
      Char.isWhitespace).reverse = trimChars cs
  rw [h1, h2, List.reverse_reverse]

end Madlibs

namespace Madlibs

/-- Chunks produced by splitting on the fence contain no fence, and the
first chunk is an initial run of the input. -/
theorem fenceSplit_spec : ∀ (n : Nat) (cs : List Char), cs.length ≤ n →
    (∀ chunk ∈ fenceSplit cs, containsSeq fence chunk = false) ∧
    (∀ s ss, fenceSplit cs = s :: ss → ∃ t, cs = s ++ t) := by
  intro n
  induction n with
  | zero =>
      intro cs hcs
      have hnil : cs = [] := List.length_eq_zero.mp (Nat.le_zero.mp hcs)
      subst hnil
      constructor
      · intro chunk hch
        simp only [fenceSplit, List.mem_singleton] at hch
        subst hch
        decide
      · intro s ss hsp
        simp only [fenceSplit, List.cons.injEq] at hsp
        exact ⟨[], by simp [← hsp.1]⟩
  | succ n ih =>
      intro cs hcs
      rcases cs with _ | ⟨c, _ | ⟨d, _ | ⟨e, rest⟩⟩⟩
      · constructor
        · intro chunk hch
          simp only [fenceSplit, List.mem_singleton] at hch
          subst hch
          decide
        · intro s ss hsp
          simp only [fenceSplit, List.cons.injEq] at hsp
          exact ⟨[], by simp [← hsp.1]⟩
      · constructor
        · intro chunk hch
          simp only [fenceSplit, List.mem_singleton] at hch
          subst hch
          simp [containsSeq, startsWithSeq, fence]
        · intro s ss hsp
          simp only [fenceSplit, List.cons.injEq] at hsp
          exact ⟨[], by simp [← hsp.1]⟩
      · constructor
        · intro chunk hch
          simp only [fenceSplit, List.mem_singleton] at hch
          subst hch
          simp [containsSeq, startsWithSeq, fence]
        · intro s ss hsp
          simp only [fenceSplit, List.cons.injEq] at hsp
          exact ⟨[], by simp [← hsp.1]⟩
      · by_cases hf : c = btick ∧ d = btick ∧ e = btick
        · have heq : fenceSplit (c :: d :: e :: rest) = [] :: fenceSplit rest := by
            simp [fenceSplit, hf]
          obtain ⟨ha, hp⟩ := ih rest (by simp only [List.length_cons] at hcs ⊢; omega)
          constructor
          · intro chunk hch
            rw [heq] at hch
            rcases List.mem_cons.mp hch with h1 | h1
            · subst h1
              decide
            · exact ha chunk h1
          · intro s ss hsp
            rw [heq] at hsp
            injection hsp with h1 h2
            exact ⟨c :: d :: e :: rest, by rw [← h1]; rfl⟩
        · have heq : fenceSplit (c :: d :: e :: rest) =
              (match fenceSplit (d :: e :: rest) with
               | [] => [[c]]
               | s :: ss => (c :: s) :: ss) := by
            simp [fenceSplit, hf]
          obtain ⟨ha, hp⟩ := ih (d :: e :: rest)
            (by simp only [List.length_cons] at hcs ⊢; omega)
          cases hsp0 : fenceSplit (d :: e :: rest) with
          | nil =>
              rw [hsp0] at heq
              constructor
              · intro chunk hch
                rw [heq] at hch
                simp only [List.mem_singleton] at hch
                subst hch
                simp [containsSeq, startsWithSeq, fence]
              · intro s ss hsp
                rw [heq] at hsp
                injection hsp with h1 h2
                exact ⟨d :: e :: rest, by rw [← h1]; rfl⟩
          | cons s0 ss0 =>
              rw [hsp0] at heq
              obtain ⟨t, ht⟩ := hp s0 ss0 hsp0
              have hs0free : containsSeq fence s0 = false :=
                ha s0 (by rw [hsp0]; exact List.mem_cons_self _ _)
              constructor
              · intro chunk hch
                rw [heq] at hch
                rcases List.mem_cons.mp hch with h1 | h1
                · subst h1
                  have hstarts : startsWithSeq fence (c :: s0) = false := by
                    cases hq : startsWithSeq fence (c :: s0)
                    · rfl
                    · exfalso
                      simp only [fence, startsWithSeq, Bool.and_eq_true,
                        decide_eq_true_eq] at hq
                      obtain ⟨hc, hq2⟩ := hq
                      cases s0 with
                      | nil => simp [startsWithSeq] at hq2
                      | cons x s1 =>
                          simp only [startsWithSeq, Bool.and_eq_true,
                            decide_eq_true_eq] at hq2
                          obtain ⟨hx, hq3⟩ := hq2
                          cases s1 with
                          | nil => simp [startsWithSeq] at hq3
                          | cons y s2 =>
                              simp only [startsWithSeq, Bool.and_eq_true,
                                decide_eq_true_eq] at hq3
                              obtain ⟨hy, -⟩ := hq3
                              rw [List.cons_append, List.cons_append] at ht
                              injection ht with hd ht2
                              injection ht2 with he ht3
                              exact hf ⟨hc.symm, by rw [hd, ← hx],
                                by rw [he, ← hy]⟩
                  simp [containsSeq, hstarts, hs0free]
                · exact ha chunk (by rw [hsp0]; exact List.mem_cons_of_mem _ h1)
              · intro s ss hsp
                rw [heq] at hsp
                injection hsp with h1 h2
                exact ⟨t, by rw [← h1, List.cons_append, ← ht]⟩

/-- A chunk surviving the loop of `strip_code_fence` is a trimmed
member of the split. -/
theorem firstGoodChunk_some (parts : List (List Char)) (c : List Char)
    (h : firstGoodChunk parts = some c) : ∃ chunk ∈ parts, c = trimChars chunk := by
  induction parts with
  | nil => simp [firstGoodChunk] at h
  | cons chunk rest ih =>
      by_cases hc : trimChars chunk = [] ∨ lowerChars (trimChars chunk) = jsonChars
      · rw [show firstGoodChunk (chunk :: rest) = firstGoodChunk rest from by
            simp only [firstGoodChunk]; rw [if_pos hc]] at h
        obtain ⟨ch, hm, he⟩ := ih h
        exact ⟨ch, List.mem_cons_of_mem _ hm, he⟩
      · rw [show firstGoodChunk (chunk :: rest) = some (trimChars chunk) from by
            simp only [firstGoodChunk]; rw [if_neg hc]] at h
        exact ⟨chunk, List.mem_cons_self _ _, (Option.some.inj h).symm⟩

/-- `strip_code_fence` when the trimmed text does not start with a
fence. -/
theorem sanitizeChars_no_fence (cs : List Char)
    (h : startsWithSeq fence (trimChars cs) = false) :
    sanitizeChars cs = trimChars cs := by
  unfold sanitizeChars
  rw [if_neg (by simp [h])]

/-- `strip_code_fence` when the trimmed text starts with a fence. -/
theorem sanitizeChars_fence (cs : List Char)
    (h : startsWithSeq fence (trimChars cs) = true) :
    sanitizeChars cs =
      (match firstGoodChunk (fenceSplit (trimChars cs)) with
       | some c => c
       | none => trimChars cs) := by
  unfold sanitizeChars
  rw [if_pos h]

/-- Claim C8: the sanitizer is idempotent — applying
`strip_code_fence` twice gives the same result as applying it once, for
every input string. -/
theorem claim_C8_sanitizer_idempotent (x : String) :
    strip_code_fence (strip_code_fence x) = strip_code_fence x := by
  suffices h : ∀ cs : List Char, sanitizeChars (sanitizeChars cs) = sanitizeChars cs by
    show String.mk (sanitizeChars (String.mk (sanitizeChars x.data)).data) =
      String.mk (sanitizeChars x.data)
    rw [show (String.mk (sanitizeChars x.data)).data = sanitizeChars x.data from rfl,
      h x.data]
  intro cs
  by_cases hst : startsWithSeq fence (trimChars cs) = true
  · rw [sanitizeChars_fence cs hst]
    cases hg : firstGoodChunk (fenceSplit (trimChars cs)) with
    | none =>
        have htrim := trimChars_trim cs
        have hst2 : startsWithSeq fence (trimChars (trimChars cs)) = true := by
          rw [htrim]
          exact hst
        rw [sanitizeChars_fence _ hst2, htrim, hg]
    | some c =>
        obtain ⟨chunk, hmem, hct⟩ := firstGoodChunk_some _ c hg
        have hfree_chunk : containsSeq fence chunk = false :=
          (fenceSplit_spec (trimChars cs).length (trimChars cs) le_rfl).1 chunk hmem
        have hfree : containsSeq fence c = false := by
          cases hq : containsSeq fence c
          · rfl
          · exfalso
            rw [hct] at hq
            exact absurd (containsSeq_trim fence chunk hq) (by simp [hfree_chunk])
        have htrimc : trimChars c = c := by
          rw [hct]
          exact trimChars_trim chunk
        have hstc : startsWithSeq fence (trimChars c) = false := by
          rw [htrimc]
          exact startsWithSeq_false_of_containsSeq_false fence c (by simp [fence]) hfree
        rw [sanitizeChars_no_fence c hstc]
        exact htrimc
  · have hstF : startsWithSeq fence (trimChars cs) = false := by
      cases hq : startsWithSeq fence (trimChars cs)
      · rfl
      · exact absurd hq hst
    rw [sanitizeChars_no_fence cs hstF]
    have htrim := trimChars_trim cs
    have hst2 : startsWithSeq fence (trimChars (trimChars cs)) = false := by
      rw [htrim]
      exact hstF
    rw [sanitizeChars_no_fence _ hst2]
    exact htrim

end Madlibs
